import Mathlib

/-!
Shallow embedding of the Tinkerbell workflow reconciler
(`tink/controllers/workflow/controller.go`) and of the test MAC generator
(`tink/test/utils/generators.go`).

Every store call and remote call made by the reconciler is recorded in a
trace. The environment `Env` fixes the result of each call, so one run of
a reconcile function is a pure computation over `Env`. Durations are
modelled in seconds (the requeue of `1 * time.Minute` becomes `60`).
-/

namespace Tink

/-- Errors returned by the store or the remote workflow service. The
`notFound` constructor stands both for `apierrors.IsNotFound` on store
reads and for `tinkclient.ErrNotFound` from the remote client; wrapping
with `fmt.Errorf("...: %w", err)` keeps the not-found nature visible to
`errors.Is`, which is what `Err.wrap` mirrors. -/
inductive Err where
  | notFound (msg : String)
  | other (msg : String)
  deriving DecidableEq

/-- Whether the error is a not-found error, surviving wrapping as
`errors.Is` and `apierrors.IsNotFound` do. -/
def Err.isNotFound : Err → Bool
  | .notFound _ => true
  | .other _ => false

/-- Error wrapping, mirroring `fmt.Errorf("msg: %w", err)`. -/
def Err.wrap (pre : String) : Err → Err
  | .notFound m => .notFound (pre ++ ": " ++ m)
  | .other m => .other (pre ++ ": " ++ m)

/-- Remote workflow state (`workflow.State` from the tink protos). -/
inductive TinkState where
  | pending
  | running
  | failed
  | timedOut
  | success
  deriving DecidableEq

/-- String rendering of `workflow.State`, as `state.String()` produces. -/
def TinkState.toString : TinkState → String
  | .pending => "STATE_PENDING"
  | .running => "STATE_RUNNING"
  | .failed => "STATE_FAILED"
  | .timedOut => "STATE_TIMEOUT"
  | .success => "STATE_SUCCESS"

/-- Remote action state (`workflow.ActionState` from the tink protos). -/
inductive ActionState where
  | actionPending
  | actionInProgress
  | actionSuccess
  | actionFailed
  | actionTimeout
  deriving DecidableEq

/-- String rendering of `workflow.ActionState`. -/
def ActionState.toString : ActionState → String
  | .actionPending => "ACTION_PENDING"
  | .actionInProgress => "ACTION_IN_PROGRESS"
  | .actionSuccess => "ACTION_SUCCESS"
  | .actionFailed => "ACTION_FAILED"
  | .actionTimeout => "ACTION_TIMEOUT"

/-- One remote task step (`workflow.WorkflowAction` proto). -/
structure WorkflowAction where
  name : String
  taskName : String
  image : String
  timeout : Int
  command : List String
  onTimeout : List String
  onFailure : List String
  workerId : String
  volumes : List String
  environment : List String
  deriving DecidableEq

/-- One remote status event (`workflow.WorkflowActionStatus` proto);
`createdAt` is the timestamp as an integer. -/
structure WorkflowActionStatus where
  actionName : String
  taskName : String
  actionStatus : ActionState
  seconds : Int
  message : String
  workerId : String
  createdAt : Int
  deriving DecidableEq

/-- Status action shape (`tinkv1alpha1.Action`). -/
structure Action where
  name : String
  taskName : String
  image : String
  timeout : Int
  command : List String
  onTimeout : List String
  onFailure : List String
  workerID : String
  volumes : List String
  environment : List String
  deriving DecidableEq

/-- Status event shape (`tinkv1alpha1.Event`); `metav1.NewTime` on the
proto timestamp is the identity here. -/
structure Event where
  actionName : String
  taskName : String
  actionStatus : String
  seconds : Int
  message : String
  workerID : String
  createdAt : Int
  deriving DecidableEq

/-- The local Workflow resource (`tinkv1alpha1.Workflow`): spec refs, the
remote id recorded by `TinkID`/`SetTinkID`, deletion timestamp presence,
the finalizer list and the status fields written by the reconciler. -/
structure WorkflowResource where
  name : String
  tinkID : String
  hardwareRef : String
  templateRef : String
  deletionTimestampSet : Bool
  finalizers : List String
  statusData : String
  statusMetadata : String
  statusActions : List Action
  statusEvents : List Event
  statusState : String
  deriving DecidableEq

/-- The zero value of the resource, as the empty Go struct before a
successful store read. -/
def WorkflowResource.zero : WorkflowResource :=
  { name := "", tinkID := "", hardwareRef := "", templateRef := "",
    deletionTimestampSet := false, finalizers := [], statusData := "",
    statusMetadata := "", statusActions := [], statusEvents := [],
    statusState := "" }

/-- The Hardware resource: only `Spec.ID` is read by the reconciler. -/
structure Hardware where
  specID : String
  deriving DecidableEq

/-- The Template resource: only `TinkID()` is read by the reconciler. -/
structure Template where
  tinkID : String
  deriving DecidableEq

/-- Remote execution snapshot (`workflow.Workflow` proto): only `GetId`
and `GetData` are read by the reconciler. -/
structure TinkWorkflow where
  id : String
  data : String
  deriving DecidableEq

/-- The well-known finalizer token (`tinkv1alpha1.WorkflowFinalizer`);
its concrete value is opaque to the reconciler. -/
def workflowFinalizer : String := "workflow.tinkerbell.org"

/-- One observable call of the reconciler: a store read, a store write
attempt (carrying the resource value being written), or a remote call. -/
inductive Ev where
  | storeGetWorkflow (name : String)
  | storeGetHardware (name : String)
  | storeGetTemplate (name : String)
  | storeFinalizerPatch (w : WorkflowResource)
  | storePatchWorkflow (w : WorkflowResource)
  | storePatchStatus (w : WorkflowResource)
  | remoteCreate (templateID hardwareID : String)
  | remoteGet (id : String)
  | remoteDelete (id : String)
  | remoteGetMetadata (id : String)
  | remoteGetActions (id : String)
  | remoteGetEvents (id : String)
  | remoteGetState (id : String)
  deriving DecidableEq

/-- Whether the event is a call to the remote workflow service. -/
def Ev.isRemoteCall : Ev → Bool
  | .remoteCreate _ _ => true
  | .remoteGet _ => true
  | .remoteDelete _ => true
  | .remoteGetMetadata _ => true
  | .remoteGetActions _ => true
  | .remoteGetEvents _ => true
  | .remoteGetState _ => true
  | _ => false

/-- Whether the event is a Create call on the remote workflow service. -/
def Ev.isCreate : Ev → Bool
  | .remoteCreate _ _ => true
  | _ => false

/-- Whether the event is the store patch persisting the resource (the
patch that records `remoteID`, or removes the finalizer). -/
def Ev.isPatchWorkflow : Ev → Bool
  | .storePatchWorkflow _ => true
  | _ => false

/-- The environment: the result each store or remote call would return.
Store writes take the value being written so distinct writes may fare
differently. -/
structure Env where
  getWorkflow : String → Except Err WorkflowResource
  getHardware : String → Except Err Hardware
  getTemplate : String → Except Err Template
  finalizerPatch : WorkflowResource → Except Err Unit
  patchWorkflow : WorkflowResource → Except Err Unit
  patchStatus : WorkflowResource → Except Err Unit
  create : String → String → Except Err String
  getW : String → Except Err TinkWorkflow
  deleteW : String → Except Err Unit
  getMetadata : String → Except Err String
  getActions : String → Except Err (List WorkflowAction)
  getEvents : String → Except Err (List WorkflowActionStatus)
  getState : String → Except Err TinkState

/-- Result of one reconcile function: the returned value (`none` for no
requeue, `some n` for requeue after `n` seconds), the in-memory resource
after the run, and the trace of calls made. -/
structure ROut where
  res : Except Err (Option Nat)
  w : WorkflowResource
  trace : List Ev

/-- The requeue delay of `ctrl.Result{RequeueAfter: 1 * time.Minute}`,
in seconds. -/
def requeueSeconds : Nat := 60

/-- Embedding of `createWorkflow`: resolve the hardware and template
refs, then call Create on the remote client with the template id and the
hardware id; single attempt, errors wrapped. -/
def createWorkflow (env : Env) (w : WorkflowResource) :
    Except Err String × List Ev :=
  match env.getHardware w.hardwareRef with
  | .error e =>
      (.error (e.wrap "failed to get hardware"),
       [.storeGetHardware w.hardwareRef])
  | .ok hw =>
      match env.getTemplate w.templateRef with
      | .error e =>
          (.error (e.wrap "failed to get template"),
           [.storeGetHardware w.hardwareRef, .storeGetTemplate w.templateRef])
      | .ok t =>
          match env.create t.tinkID hw.specID with
          | .error e =>
              (.error (e.wrap "failed to create workflow"),
               [.storeGetHardware w.hardwareRef,
                .storeGetTemplate w.templateRef,
                .remoteCreate t.tinkID hw.specID])
          | .ok id =>
              (.ok id,
               [.storeGetHardware w.hardwareRef,
                .storeGetTemplate w.templateRef,
                .remoteCreate t.tinkID hw.specID])

/-- Mapping of one remote action into the status shape, as the loop in
`reconcileStatus` does. -/
def mapAction (a : WorkflowAction) : Action :=
  { name := a.name, taskName := a.taskName, image := a.image,
    timeout := a.timeout, command := a.command, onTimeout := a.onTimeout,
    onFailure := a.onFailure, workerID := a.workerId, volumes := a.volumes,
    environment := a.environment }

/-- Mapping of one remote status event into the status shape, as the
loop in `reconcileStatus` does. -/
def mapEvent (e : WorkflowActionStatus) : Event :=
  { actionName := e.actionName, taskName := e.taskName,
    actionStatus := e.actionStatus.toString, seconds := e.seconds,
    message := e.message, workerID := e.workerId, createdAt := e.createdAt }

/-- Body of `reconcileStatus` before the deferred status patch: mirror
`data`, then fetch metadata, actions, events and state in that order,
each failure aborting the remaining fetches; a non-success final state
yields the fixed requeue. -/
def reconcileStatusBody (env : Env) (w : WorkflowResource)
    (tw : TinkWorkflow) : ROut :=
  let w := { w with statusData := tw.data }
  match env.getMetadata tw.id with
  | .error e =>
      ⟨.error (e.wrap "failed to get metadata for workflow"), w,
       [.remoteGetMetadata tw.id]⟩
  | .ok md =>
      let w := { w with statusMetadata := md }
      match env.getActions tw.id with
      | .error e =>
          ⟨.error (e.wrap "failed to get actions for workflow"), w,
           [.remoteGetMetadata tw.id, .remoteGetActions tw.id]⟩
      | .ok actions =>
          let w := { w with statusActions := actions.map mapAction }
          match env.getEvents tw.id with
          | .error e =>
              ⟨.error (e.wrap "failed to get events for workflow"), w,
               [.remoteGetMetadata tw.id, .remoteGetActions tw.id,
                .remoteGetEvents tw.id]⟩
          | .ok events =>
              let w := { w with statusEvents := events.map mapEvent }
              match env.getState tw.id with
              | .error e =>
                  ⟨.error (e.wrap "failed to get state for workflow"), w,
                   [.remoteGetMetadata tw.id, .remoteGetActions tw.id,
                    .remoteGetEvents tw.id, .remoteGetState tw.id]⟩
              | .ok st =>
                  let w := { w with statusState := st.toString }
                  if st = TinkState.success then
                    ⟨.ok none, w,
                     [.remoteGetMetadata tw.id, .remoteGetActions tw.id,
                      .remoteGetEvents tw.id, .remoteGetState tw.id]⟩
                  else
                    ⟨.ok (some requeueSeconds), w,
                     [.remoteGetMetadata tw.id, .remoteGetActions tw.id,
                      .remoteGetEvents tw.id, .remoteGetState tw.id]⟩

/-- Embedding of `reconcileStatus`: run the body, then the deferred
status patch fires on every exit path with whatever was gathered; a
patch failure is only logged, never returned. -/
def reconcileStatus (env : Env) (w : WorkflowResource)
    (tw : TinkWorkflow) : ROut :=
  let b := reconcileStatusBody env w tw
  let _ := env.patchStatus b.w
  { res := b.res, w := b.w, trace := b.trace ++ [.storePatchStatus b.w] }

/-- Embedding of `reconcileNormal`: create the remote execution when
`TinkID` is empty, then Get the execution, record the id with
`SetTinkID` and patch the resource, then sync status. -/
def reconcileNormal (env : Env) (w : WorkflowResource) : ROut :=
  let cw : Except Err String × List Ev :=
    if w.tinkID = "" then createWorkflow env w else (.ok w.tinkID, [])
  match cw with
  | (.error e, tr) => ⟨.error e, w, tr⟩
  | (.ok workflowID, tr) =>
      match env.getW workflowID with
      | .error e =>
          ⟨.error (e.wrap "failed to get workflow"), w,
           tr ++ [.remoteGet workflowID]⟩
      | .ok tinkWorkflow =>
          let w1 := { w with tinkID := workflowID }
          match env.patchWorkflow w1 with
          | .error e =>
              ⟨.error (e.wrap "failed to patch workflow"), w1,
               tr ++ [.remoteGet workflowID, .storePatchWorkflow w1]⟩
          | .ok _ =>
              let s := reconcileStatus env w1 tinkWorkflow
              ⟨s.res, s.w,
               tr ++ [.remoteGet workflowID, .storePatchWorkflow w1]
                  ++ s.trace⟩

/-- Removal of a finalizer token from a resource, as
`controllerutil.RemoveFinalizer` mutates the finalizer list in place. -/
def removeFinalizer (w : WorkflowResource) (f : String) : WorkflowResource :=
  { w with finalizers := w.finalizers.filter (· ≠ f) }

/-- Embedding of `reconcileDelete`: when an id is recorded, Delete it on
the remote client, treating a not-found result as success; then remove
the finalizer and patch the resource. -/
def reconcileDelete (env : Env) (w : WorkflowResource) : ROut :=
  let step : Except Err Unit × List Ev :=
    if w.tinkID ≠ "" then
      match env.deleteW w.tinkID with
      | .error e =>
          if e.isNotFound then (.ok (), [.remoteDelete w.tinkID])
          else
            (.error (e.wrap "failed to delete workflow from Tinkerbell"),
             [.remoteDelete w.tinkID])
      | .ok _ => (.ok (), [.remoteDelete w.tinkID])
    else (.ok (), [])
  match step with
  | (.error e, tr) => ⟨.error e, w, tr⟩
  | (.ok _, tr) =>
      let w1 := removeFinalizer w workflowFinalizer
      match env.patchWorkflow w1 with
      | .error e =>
          ⟨.error (e.wrap "failed to patch workflow"), w1,
           tr ++ [.storePatchWorkflow w1]⟩
      | .ok _ => ⟨.ok none, w1, tr ++ [.storePatchWorkflow w1]⟩

/-- Addition of a finalizer token to a resource, as
`controllerutil.AddFinalizer` mutates the finalizer list in place. -/
def addFinalizer (w : WorkflowResource) (f : String) : WorkflowResource :=
  { w with finalizers := w.finalizers ++ [f] }

/-- Modelled from the spec: `common.EnsureFinalizer` (package
`tink/controllers/common`, whose source is not under src/). The spec
says: ensure the finalizer marker is present as an idempotent add and
persist before proceeding if it was missing. Returns the updated
in-memory resource together with the write attempted, if any. -/
def ensureFinalizer (env : Env) (w : WorkflowResource) (f : String) :
    Except Err Unit × WorkflowResource × List Ev :=
  if f ∈ w.finalizers then (.ok (), w, [])
  else
    let w1 := addFinalizer w f
    match env.finalizerPatch w1 with
    | .error e => (.error e, w1, [.storeFinalizerPatch w1])
    | .ok _ => (.ok (), w1, [.storeFinalizerPatch w1])

/-- Embedding of `Reconcile`: load the resource (absence is success),
ensure the finalizer, then branch on the deletion timestamp into the
delete path or the normal path. -/
def Reconcile (env : Env) (name : String) : ROut :=
  match env.getWorkflow name with
  | .error e =>
      if e.isNotFound then
        ⟨.ok none, WorkflowResource.zero, [.storeGetWorkflow name]⟩
      else
        ⟨.error (e.wrap "failed to get workflow"), WorkflowResource.zero,
         [.storeGetWorkflow name]⟩
  | .ok w =>
      match ensureFinalizer env w workflowFinalizer with
      | (.error e, w1, tr) =>
          ⟨.error (e.wrap "failed to ensure finalizer on workflow"), w1,
           [.storeGetWorkflow name] ++ tr⟩
      | (.ok _, w1, tr) =>
          if w1.deletionTimestampSet then
            let d := reconcileDelete env w1
            ⟨d.res, d.w, [.storeGetWorkflow name] ++ tr ++ d.trace⟩
          else
            let n := reconcileNormal env w1
            ⟨n.res, n.w, [.storeGetWorkflow name] ++ tr ++ n.trace⟩

/-!
Embedding of the test MAC generator (`macGenerator.Get` in
`tink/test/utils/generators.go`). Randomness is an explicit stream of
6-byte draws; the unbounded retry loop takes explicit fuel, `none`
meaning the bound was exhausted. The set of handed-out addresses is the
list of keys returned so far.
-/

/-- Lower-case hex digit of a value below 16. -/
def hexDigit (n : Nat) : Char :=
  if n < 10 then Char.ofNat (48 + n) else Char.ofNat (87 + n)

/-- Two-digit lower-case hex rendering of one byte. -/
def byteHex (b : Nat) : String :=
  String.mk [hexDigit (b / 16 % 16), hexDigit (b % 16)]

/-- Rendering of `net.HardwareAddr.String()`: bytes in hex joined by
colons. -/
def hardwareAddrString (bs : List Nat) : String :=
  String.intercalate ":" (bs.map byteHex)

/-- One candidate MAC from one random draw, as `macGenerator.Get`
computes it: bytes reduced mod 256 as `rand.Read` yields, then the first
octet gets bit 0 cleared (`mac[0] &= ^byte(1)`) and bit 1 set
(`mac[0] |= 2`). -/
def macFromRandom (bs : List Nat) : List Nat :=
  match bs.map (· % 256) with
  | [] => []
  | b0 :: rest => ((b0 &&& 0xfe) ||| 2) :: rest

/-- Embedding of `macGenerator.Get`: draw random bytes, normalize the
first octet, retry while the rendered key was already handed out, else
record and return it. `fuel` bounds the retries of the Go `for` loop and
`k` indexes the stream of random draws. -/
def macGeneratorGet (stream : Nat → List Nat) :
    Nat → Nat → List String → Option (String × List String)
  | 0, _, _ => none
  | fuel + 1, k, used =>
      let key := hardwareAddrString (macFromRandom (stream k))
      if key ∈ used then macGeneratorGet stream fuel (k + 1) used
      else some (key, used ++ [key])

/-!
Trace predicates used to state the claims.
-/

/-- Whether no Create call occurs in the trace. -/
def noCreate (tr : List Ev) : Bool := tr.all (fun e => !e.isCreate)

/-- Scanning after a Create call: true when the id-recording patch is
reached before any further remote call. -/
def noRemoteBeforePatch : List Ev → Bool
  | [] => true
  | e :: rest =>
      if e.isPatchWorkflow then true
      else if e.isRemoteCall then false
      else noRemoteBeforePatch rest

/-- The id-persisting discipline claimed by the spec: after the first
Create call in the trace, a workflow patch occurs before any further
remote-service call. -/
def persistsBeforeFurtherRemote : List Ev → Bool
  | [] => true
  | e :: rest =>
      if e.isCreate then noRemoteBeforePatch rest
      else persistsBeforeFurtherRemote rest

/-- Scan for the finalizer-before-create discipline: `flag` records
whether the finalizer is known present (on the loaded resource or by an
earlier finalizer write in the trace); every Create call must find the
flag set. -/
def finalizerBeforeCreateScan (flag : Bool) : List Ev → Bool
  | [] => true
  | e :: rest =>
      match e with
      | .remoteCreate _ _ => flag && finalizerBeforeCreateScan flag rest
      | .storeFinalizerPatch w1 =>
          finalizerBeforeCreateScan
            (flag || decide (workflowFinalizer ∈ w1.finalizers)) rest
      | _ => finalizerBeforeCreateScan flag rest

/-- The four status fetches in source order. -/
def fetchSeq (id : String) : List Ev :=
  [.remoteGetMetadata id, .remoteGetActions id, .remoteGetEvents id,
   .remoteGetState id]

/-!
Concrete resources and environments used for counterexamples and
witnesses.
-/

/-- A fresh resource: refs set, no remote id yet, finalizer present. -/
def wfEmpty : WorkflowResource :=
  { WorkflowResource.zero with
      name := "wf-1", hardwareRef := "hw-1", templateRef := "tpl-1",
      finalizers := [workflowFinalizer] }

/-- The same resource with a recorded remote id. -/
def wfWithID : WorkflowResource := { wfEmpty with tinkID := "R1" }

/-- An environment where every call succeeds; the remote execution is
running. -/
def envBase : Env :=
  { getWorkflow := fun _ => .ok wfEmpty,
    getHardware := fun _ => .ok { specID := "H1" },
    getTemplate := fun _ => .ok { tinkID := "T1" },
    finalizerPatch := fun _ => .ok (),
    patchWorkflow := fun _ => .ok (),
    patchStatus := fun _ => .ok (),
    create := fun _ _ => .ok "R1",
    getW := fun id => .ok { id := id, data := "D1" },
    deleteW := fun _ => .ok (),
    getMetadata := fun _ => .ok "MD",
    getActions := fun _ => .ok [],
    getEvents := fun _ => .ok [],
    getState := fun _ => .ok .running }

/-- As `envBase` but the remote Get of the execution fails. -/
def envGetFails : Env :=
  { envBase with getW := fun _ => .error (.other "connection refused") }

/-- As `envBase` but the store serves the resource with its remote id
already recorded, and the remote execution has succeeded. -/
def envWithID : Env :=
  { envBase with
      getWorkflow := fun _ => .ok wfWithID,
      getState := fun _ => .ok .success }

/-- The resource with a recorded remote id and a deletion timestamp. -/
def wfDeleting : WorkflowResource := { wfWithID with deletionTimestampSet := true }

/-- As `envWithID` but the remote Delete reports not found. -/
def envDeleteGone : Env :=
  { envWithID with deleteW := fun _ => .error (.notFound "workflow not found") }

/-- As `envWithID` but the remote Delete fails with a transient error. -/
def envDeleteFails : Env :=
  { envWithID with deleteW := fun _ => .error (.other "connection refused") }

/-- A sample remote action. -/
def actA1 : WorkflowAction :=
  { name := "a1", taskName := "t1", image := "img", timeout := 60,
    command := [], onTimeout := [], onFailure := [],
    workerId := "wk", volumes := [], environment := [] }

/-- A sample remote execution snapshot. -/
def twR1 : TinkWorkflow := { id := "R1", data := "D1" }

/-- As `envWithID` but the events fetch fails, with one action to
fetch. -/
def envEventsFail : Env :=
  { envWithID with
      getActions := fun _ => .ok [actA1],
      getEvents := fun _ => .error (.other "connection refused") }

/-- As `envWithID` but the status patch fails. -/
def envStatusPatchFails : Env :=
  { envWithID with patchStatus := fun _ => .error (.other "conflict") }

/-- An environment whose store serves no resource: not found under the
name "a", a transient read failure under any other name. -/
def envAbsent : Env :=
  { envBase with
      getWorkflow := fun n =>
        if n = "a" then .error (.notFound "workflows \"a\" not found")
        else .error (.other "connection refused") }

/-!
Helper lemmas about the status sync.
-/

/-- The remote id recorded on the resource survives the status sync
body, which writes only status fields. -/
lemma statusBody_tinkID (env : Env) (w : WorkflowResource)
    (tw : TinkWorkflow) :
    (reconcileStatusBody env w tw).w.tinkID = w.tinkID := by
  unfold reconcileStatusBody
  cases env.getMetadata tw.id with
  | error e => simp
  | ok md =>
    cases env.getActions tw.id with
    | error e => simp
    | ok acts =>
      cases env.getEvents tw.id with
      | error e => simp
      | ok evs =>
        cases env.getState tw.id with
        | error e => simp
        | ok st =>
          by_cases hst : st = TinkState.success <;> simp [hst]

/-- The remote id recorded on the resource survives `reconcileStatus`. -/
lemma status_tinkID (env : Env) (w : WorkflowResource)
    (tw : TinkWorkflow) :
    (reconcileStatus env w tw).w.tinkID = w.tinkID := by
  simpa [reconcileStatus] using statusBody_tinkID env w tw

/-- The status sync body performs the four fetches in source order,
stopping at the first failure: its trace is a take of `fetchSeq`. -/
lemma statusBody_trace_shape (env : Env) (w : WorkflowResource)
    (tw : TinkWorkflow) :
    ∃ k, k ≤ 4 ∧
      (reconcileStatusBody env w tw).trace = (fetchSeq tw.id).take k := by
  unfold reconcileStatusBody
  cases env.getMetadata tw.id with
  | error e => exact ⟨1, by omega, by simp [fetchSeq]⟩
  | ok md =>
    cases env.getActions tw.id with
    | error e => exact ⟨2, by omega, by simp [fetchSeq]⟩
    | ok acts =>
      cases env.getEvents tw.id with
      | error e => exact ⟨3, by omega, by simp [fetchSeq]⟩
      | ok evs =>
        cases env.getState tw.id with
        | error e => exact ⟨4, by omega, by simp [fetchSeq]⟩
        | ok st =>
          by_cases hst : st = TinkState.success <;>
            exact ⟨4, by omega, by simp [hst, fetchSeq]⟩

/-- No fetch of `fetchSeq` is a Create call, and neither is the status
patch, so the status sync never creates. -/
lemma status_noCreate (env : Env) (w : WorkflowResource)
    (tw : TinkWorkflow) :
    noCreate (reconcileStatus env w tw).trace = true := by
  obtain ⟨k, _, htr⟩ := statusBody_trace_shape env w tw
  simp only [reconcileStatus, noCreate, htr, List.all_append,
    Bool.and_eq_true, List.all_eq_true]
  constructor
  · intro e he
    have he2 : e ∈ fetchSeq tw.id := List.take_subset k _ he
    fin_cases he2 <;> rfl
  · intro e he
    simp only [List.mem_singleton] at he
    subst he
    rfl

/-- The string rendering of the remote state equals the success string
exactly for the success state. -/
lemma toString_success_iff (st : TinkState) :
    st.toString = TinkState.success.toString ↔ st = TinkState.success := by
  cases st <;> simp [TinkState.toString]

/-- On a successful status sync the returned value is either no requeue
or the fixed delay, and no requeue happens exactly when the mirrored
state is the terminal success string. -/
lemma status_res_ok (env : Env) (w : WorkflowResource) (tw : TinkWorkflow)
    (r : Option Nat) (hr : (reconcileStatus env w tw).res = .ok r) :
    (r = none ∨ r = some requeueSeconds) ∧
    (r = none ↔
      (reconcileStatus env w tw).w.statusState = TinkState.success.toString) := by
  simp only [reconcileStatus] at hr ⊢
  unfold reconcileStatusBody at hr ⊢
  cases h1 : env.getMetadata tw.id with
  | error e => simp [h1] at hr
  | ok md =>
    simp only [h1] at hr ⊢
    cases h2 : env.getActions tw.id with
    | error e => simp [h2] at hr
    | ok acts =>
      simp only [h2] at hr ⊢
      cases h3 : env.getEvents tw.id with
      | error e => simp [h3] at hr
      | ok evs =>
        simp only [h3] at hr ⊢
        cases h4 : env.getState tw.id with
        | error e => simp [h4] at hr
        | ok st =>
          simp only [h4] at hr ⊢
          by_cases hst : st = TinkState.success
          · simp only [if_pos hst] at hr ⊢
            simp only [Except.ok.injEq] at hr
            subst hr
            simp [hst]
          · simp only [if_neg hst] at hr ⊢
            simp only [Except.ok.injEq] at hr
            subst hr
            simp [toString_success_iff, hst]

/-- C7: during status sync the fetches happen in the order metadata,
actions, events, state; a failure of any fetch aborts the remaining
fetches and returns an error, but the status gathered so far is still
patched onto the resource; in particular with the actions fetch
succeeding and the events fetch failing, the patched status carries the
fetched actions (and metadata) and the error is still returned. The last
conjunct states the general ordering: every status sync traces a take of
the fetch sequence followed by the status patch. -/
theorem c7_partial_status_preserved (env : Env) (w : WorkflowResource)
    (tw : TinkWorkflow) (md : String) (acts : List WorkflowAction) (e : Err)
    (h1 : env.getMetadata tw.id = .ok md)
    (h2 : env.getActions tw.id = .ok acts)
    (h3 : env.getEvents tw.id = .error e) :
    (reconcileStatus env w tw).res =
      .error (e.wrap "failed to get events for workflow") ∧
    (reconcileStatus env w tw).trace =
      [.remoteGetMetadata tw.id, .remoteGetActions tw.id,
       .remoteGetEvents tw.id,
       .storePatchStatus (reconcileStatus env w tw).w] ∧
    (reconcileStatus env w tw).w.statusActions = acts.map mapAction ∧
    (reconcileStatus env w tw).w.statusMetadata = md ∧
    (∀ env2 w2 tw2, ∃ k, k ≤ 4 ∧
      (reconcileStatus env2 w2 tw2 : ROut).trace =
        (fetchSeq tw2.id).take k ++
          [.storePatchStatus (reconcileStatus env2 w2 tw2).w]) := by
  refine ⟨?_, ?_, ?_, ?_, ?_⟩
  · simp [reconcileStatus, reconcileStatusBody, h1, h2, h3]
  · simp [reconcileStatus, reconcileStatusBody, h1, h2, h3]
  · simp [reconcileStatus, reconcileStatusBody, h1, h2, h3]
  · simp [reconcileStatus, reconcileStatusBody, h1, h2, h3]
  · intro env2 w2 tw2
    obtain ⟨k, hk, htr⟩ := statusBody_trace_shape env2 w2 tw2
    exact ⟨k, hk, by simp [reconcileStatus, htr]⟩

/-- Witness for C7 at a concrete environment where the events fetch
fails after one action was fetched. -/
theorem c7_witness :
    (reconcileStatus envEventsFail wfWithID twR1).res =
      .error (Err.wrap "failed to get events for workflow"
        (.other "connection refused")) ∧
    (reconcileStatus envEventsFail wfWithID twR1).trace =
      [.remoteGetMetadata twR1.id, .remoteGetActions twR1.id,
       .remoteGetEvents twR1.id,
       .storePatchStatus (reconcileStatus envEventsFail wfWithID twR1).w] ∧
    (reconcileStatus envEventsFail wfWithID twR1).w.statusActions =
      [actA1].map mapAction ∧
    (reconcileStatus envEventsFail wfWithID twR1).w.statusMetadata = "MD" ∧
    (∀ env2 w2 tw2, ∃ k, k ≤ 4 ∧
      (reconcileStatus env2 w2 tw2 : ROut).trace =
        (fetchSeq tw2.id).take k ++
          [.storePatchStatus (reconcileStatus env2 w2 tw2).w]) :=
  c7_partial_status_preserved envEventsFail wfWithID twR1 "MD" [actA1]
    (.other "connection refused") rfl rfl rfl

/-- C9: a failure of the deferred status patch is only logged, never
returned: with all four fetches succeeding and the status patch failing,
the status sync still returns success with the usual requeue decision
(none on terminal success, the fixed delay otherwise); moreover the
whole result never depends on the patch outcome. -/
theorem c9_status_patch_failure_ignored (env : Env) (w : WorkflowResource)
    (tw : TinkWorkflow) (md : String) (acts : List WorkflowAction)
    (evs : List WorkflowActionStatus) (st : TinkState) (pe : String)
    (h1 : env.getMetadata tw.id = .ok md)
    (h2 : env.getActions tw.id = .ok acts)
    (h3 : env.getEvents tw.id = .ok evs)
    (h4 : env.getState tw.id = .ok st)
    (_h5 : env.patchStatus = fun _ => .error (.other pe)) :
    (reconcileStatus env w tw).res =
      .ok (if st = TinkState.success then none else some requeueSeconds) ∧
    (∀ f, reconcileStatus { env with patchStatus := f } w tw =
      reconcileStatus env w tw) := by
  constructor
  · simp only [reconcileStatus]
    unfold reconcileStatusBody
    simp only [h1, h2, h3, h4]
    by_cases hst : st = TinkState.success <;> simp [hst]
  · intro f
    rfl

/-- Witness for C9 at a concrete environment whose status patch fails
while the remote execution has succeeded. -/
theorem c9_witness :
    (reconcileStatus envStatusPatchFails wfWithID twR1).res =
      .ok (if TinkState.success = TinkState.success then none
           else some requeueSeconds) ∧
    (∀ f, reconcileStatus { envStatusPatchFails with patchStatus := f }
        wfWithID twR1 = reconcileStatus envStatusPatchFails wfWithID twR1) :=
  c9_status_patch_failure_ignored envStatusPatchFails wfWithID twR1
    "MD" [] [] .success "conflict" rfl rfl rfl rfl rfl

/-- C5: in the delete path a not-found result of the remote Delete is
treated as success: the finalizer is removed and the resource persisted,
exactly as when Delete succeeds or when no remote id is recorded, and a
second run of the delete path on the resulting resource completes
successfully again with the finalizer still removed. -/
theorem c5_delete_not_found_is_success (env : Env) (w : WorkflowResource)
    (m : String)
    (hid : w.tinkID ≠ "")
    (hdel : env.deleteW w.tinkID = .error (.notFound m))
    (hpatch : ∀ x, env.patchWorkflow x = .ok ()) :
    ((reconcileDelete env w).res = .ok none ∧
     workflowFinalizer ∉ (reconcileDelete env w).w.finalizers ∧
     Ev.storePatchWorkflow (reconcileDelete env w).w ∈
       (reconcileDelete env w).trace) ∧
    ((reconcileDelete env (reconcileDelete env w).w).res = .ok none ∧
     workflowFinalizer ∉
       (reconcileDelete env (reconcileDelete env w).w).w.finalizers) ∧
    ((reconcileDelete env w).res =
       (reconcileDelete { env with deleteW := fun _ => .ok () } w).res ∧
     (reconcileDelete env w).w =
       (reconcileDelete { env with deleteW := fun _ => .ok () } w).w) ∧
    ((reconcileDelete env { w with tinkID := "" }).res =
       (reconcileDelete env w).res ∧
     (reconcileDelete env { w with tinkID := "" }).w.finalizers =
       (reconcileDelete env w).w.finalizers) := by
  simp [reconcileDelete, removeFinalizer, hid, hdel, hpatch, Err.isNotFound,
    List.mem_filter, List.filter_filter]

/-- Witness for C5 at a concrete deleting resource whose remote
execution is already gone. -/
theorem c5_witness :
    ((reconcileDelete envDeleteGone wfDeleting).res = .ok none ∧
     workflowFinalizer ∉ (reconcileDelete envDeleteGone wfDeleting).w.finalizers ∧
     Ev.storePatchWorkflow (reconcileDelete envDeleteGone wfDeleting).w ∈
       (reconcileDelete envDeleteGone wfDeleting).trace) ∧
    ((reconcileDelete envDeleteGone
        (reconcileDelete envDeleteGone wfDeleting).w).res = .ok none ∧
     workflowFinalizer ∉
       (reconcileDelete envDeleteGone
         (reconcileDelete envDeleteGone wfDeleting).w).w.finalizers) ∧
    ((reconcileDelete envDeleteGone wfDeleting).res =
       (reconcileDelete { envDeleteGone with deleteW := fun _ => .ok () }
         wfDeleting).res ∧
     (reconcileDelete envDeleteGone wfDeleting).w =
       (reconcileDelete { envDeleteGone with deleteW := fun _ => .ok () }
         wfDeleting).w) ∧
    ((reconcileDelete envDeleteGone { wfDeleting with tinkID := "" }).res =
       (reconcileDelete envDeleteGone wfDeleting).res ∧
     (reconcileDelete envDeleteGone { wfDeleting with tinkID := "" }).w.finalizers =
       (reconcileDelete envDeleteGone wfDeleting).w.finalizers) :=
  c5_delete_not_found_is_success envDeleteGone wfDeleting
    "workflow not found" (by decide) rfl (fun _ => rfl)

/-- C6: a Delete error other than not-found aborts the delete path with
an error, leaving the resource untouched: the finalizer is not removed
and no store write is attempted (the trace holds only the Delete
attempt). -/
theorem c6_delete_error_aborts (env : Env) (w : WorkflowResource) (e : Err)
    (hid : w.tinkID ≠ "")
    (hdel : env.deleteW w.tinkID = .error e)
    (hnf : e.isNotFound = false) :
    (reconcileDelete env w).res =
      .error (e.wrap "failed to delete workflow from Tinkerbell") ∧
    (reconcileDelete env w).w = w ∧
    (reconcileDelete env w).trace = [.remoteDelete w.tinkID] := by
  simp [reconcileDelete, hid, hdel, hnf]

/-- Witness for C6 at a concrete deleting resource whose remote Delete
fails with a transient error. -/
theorem c6_witness :
    (reconcileDelete envDeleteFails wfDeleting).res =
      .error ((Err.other "connection refused").wrap
        "failed to delete workflow from Tinkerbell") ∧
    (reconcileDelete envDeleteFails wfDeleting).w = wfDeleting ∧
    (reconcileDelete envDeleteFails wfDeleting).trace =
      [.remoteDelete wfDeleting.tinkID] :=
  c6_delete_error_aborts envDeleteFails wfDeleting
    (.other "connection refused") (by decide) rfl rfl

/-- C8: reconciling an identity absent from the store returns success
with no requeue and makes no further store or remote call, while any
other load failure is returned as an error. -/
theorem c8_absent_resource (env : Env) (name : String) (m : String) :
    (env.getWorkflow name = .error (.notFound m) →
      Reconcile env name =
        ⟨.ok none, WorkflowResource.zero, [.storeGetWorkflow name]⟩) ∧
    (env.getWorkflow name = .error (.other m) →
      (Reconcile env name).res =
        .error (.other ("failed to get workflow: " ++ m))) := by
  constructor
  · intro h
    simp [Reconcile, h, Err.isNotFound]
  · intro h
    simp [Reconcile, h, Err.isNotFound, Err.wrap]

/-- Witness for C8 at a concrete store with a missing resource under
one name and a transient read failure under another. -/
theorem c8_witness :
    Reconcile envAbsent "a" =
      ⟨.ok none, WorkflowResource.zero, [.storeGetWorkflow "a"]⟩ ∧
    (Reconcile envAbsent "b").res =
      .error (.other ("failed to get workflow: " ++ "connection refused")) :=
  ⟨(c8_absent_resource envAbsent "a" "workflows \"a\" not found").1 rfl,
   (c8_absent_resource envAbsent "b" "connection refused").2 rfl⟩

/-- Per-call facts of the MAC generator loop: a returned key comes from
some draw of the stream, was not handed out before, and is recorded as
handed out. -/
lemma macGet_shape (stream : Nat → List Nat) (used : List String)
    (fuel k : Nat) (m : String) (u : List String)
    (h : macGeneratorGet stream fuel k used = some (m, u)) :
    (∃ j, m = hardwareAddrString (macFromRandom (stream j))) ∧
    m ∉ used ∧ u = used ++ [m] := by
  induction fuel generalizing k with
  | zero => simp [macGeneratorGet] at h
  | succ n ih =>
    simp only [macGeneratorGet] at h
    by_cases hmem : hardwareAddrString (macFromRandom (stream k)) ∈ used
    · rw [if_pos hmem] at h
      exact ih _ h
    · rw [if_neg hmem] at h
      simp only [Option.some.injEq, Prod.mk.injEq] at h
      obtain ⟨hm, hu⟩ := h
      subst hm
      exact ⟨⟨k, rfl⟩, hmem, hu.symm⟩

/-- C10: every MAC address returned by the generator has bit 0 of the
first octet (the multicast bit) cleared and bit 1 (the locally
administered bit) set, is distinct from every address handed out
before, and is recorded so that any later call on the resulting state
returns a different address. -/
theorem c10_mac_generator (stream : Nat → List Nat) (used : List String)
    (fuel k : Nat) (m : String) (u : List String)
    (hlen : ∀ n, (stream n).length = 6)
    (h : macGeneratorGet stream fuel k used = some (m, u)) :
    (∃ b0 rest, m = hardwareAddrString (b0 :: rest) ∧
      b0.testBit 0 = false ∧ b0.testBit 1 = true) ∧
    m ∉ used ∧ u = used ++ [m] ∧
    (∀ s2 f2 k2 m2 u2, macGeneratorGet s2 f2 k2 u = some (m2, u2) →
      m2 ≠ m) := by
  obtain ⟨⟨j, hj⟩, hnot, hu⟩ := macGet_shape stream used fuel k m u h
  refine ⟨?_, hnot, hu, ?_⟩
  · have hlen6 := hlen j
    cases hsj : stream j with
    | nil => rw [hsj] at hlen6; simp at hlen6
    | cons b bs =>
      refine ⟨((b % 256) &&& 0xfe) ||| 2, bs.map (· % 256), ?_, ?_, ?_⟩
      · rw [hj, hsj]
        simp [macFromRandom]
      · rw [Nat.testBit_lor, Nat.testBit_land]
        have h1 : Nat.testBit 0xfe 0 = false := by decide
        have h2 : Nat.testBit 2 0 = false := by decide
        simp [h1, h2]
      · rw [Nat.testBit_lor]
        have h2 : Nat.testBit 2 1 = true := by decide
        simp [h2]
  · intro s2 f2 k2 m2 u2 h2
    obtain ⟨_, hnot2, _⟩ := macGet_shape s2 u f2 k2 m2 u2 h2
    rw [hu] at hnot2
    intro heq
    apply hnot2
    rw [heq]
    exact List.mem_append_right _ (List.mem_cons_self _ _)

/-- Witness for C10: one call on an all-zero draw returns the locally
administered address 02:00:00:00:00:00. -/
theorem c10_witness :
    (∃ b0 rest, "02:00:00:00:00:00" = hardwareAddrString (b0 :: rest) ∧
      b0.testBit 0 = false ∧ b0.testBit 1 = true) ∧
    "02:00:00:00:00:00" ∉ ([] : List String) ∧
    ["02:00:00:00:00:00"] = ([] : List String) ++ ["02:00:00:00:00:00"] ∧
    (∀ s2 f2 k2 m2 u2,
      macGeneratorGet s2 f2 k2 ["02:00:00:00:00:00"] = some (m2, u2) →
      m2 ≠ "02:00:00:00:00:00") :=
  c10_mac_generator (fun _ => [0, 0, 0, 0, 0, 0]) [] 1 0
    "02:00:00:00:00:00" ["02:00:00:00:00:00"] (fun _ => rfl) (by decide)

/-- C1 counterexample: with an empty remote id, Create succeeding with
id R1 and the subsequent remote Get of the execution failing, the
normal path makes a further remote-service call (the Get) after Create
returns, with no workflow patch in between (nor at all in this pass),
and the pass ends with the remote id still unset although the remote
execution was created — refuting both the persisted-immediately part
and the if-and-only-if part of the claim. -/
theorem c1_counterexample :
    (reconcileNormal envGetFails wfEmpty).trace =
      [.storeGetHardware "hw-1", .storeGetTemplate "tpl-1",
       .remoteCreate "T1" "H1", .remoteGet "R1"] ∧
    persistsBeforeFurtherRemote
      (reconcileNormal envGetFails wfEmpty).trace = false ∧
    envGetFails.create "T1" "H1" = .ok "R1" ∧
    (reconcileNormal envGetFails wfEmpty).w.tinkID = "" :=
  ⟨by decide, by decide, rfl, by decide⟩

/-- C1 amended: when the remote id is empty and the normal path
completes without error, the id returned by Create is recorded on the
resource and persisted by the workflow patch, and the only remote call
between Create returning and that patch is the single Get of the
created execution — all status fetches come after the patch; if the Get
or the patch fails, the pass errors with the id unpersisted. -/
theorem c1_amended_id_persisted (env : Env) (w : WorkflowResource)
    (r : Option Nat) (h0 : w.tinkID = "")
    (hr : (reconcileNormal env w).res = .ok r) :
    ∃ hw t id tr,
      env.getHardware w.hardwareRef = .ok hw ∧
      env.getTemplate w.templateRef = .ok t ∧
      env.create t.tinkID hw.specID = .ok id ∧
      (reconcileNormal env w).w.tinkID = id ∧
      (reconcileNormal env w).trace =
        [.storeGetHardware w.hardwareRef, .storeGetTemplate w.templateRef,
         .remoteCreate t.tinkID hw.specID, .remoteGet id,
         .storePatchWorkflow { w with tinkID := id }] ++ tr ∧
      noCreate tr = true := by
  cases hhw : env.getHardware w.hardwareRef with
  | error e => simp [reconcileNormal, createWorkflow, h0, hhw] at hr
  | ok hw =>
    cases ht : env.getTemplate w.templateRef with
    | error e => simp [reconcileNormal, createWorkflow, h0, hhw, ht] at hr
    | ok t =>
      cases hc : env.create t.tinkID hw.specID with
      | error e => simp [reconcileNormal, createWorkflow, h0, hhw, ht, hc] at hr
      | ok id =>
        cases hg : env.getW id with
        | error e =>
          simp [reconcileNormal, createWorkflow, h0, hhw, ht, hc, hg] at hr
        | ok tw =>
          cases hp : env.patchWorkflow { w with tinkID := id } with
          | error e =>
            simp [reconcileNormal, createWorkflow, h0, hhw, ht, hc, hg, hp] at hr
          | ok u =>
            refine ⟨hw, t, id,
              (reconcileStatus env { w with tinkID := id } tw).trace,
              rfl, rfl, hc, ?_, ?_, ?_⟩
            · have hs := status_tinkID env { w with tinkID := id } tw
              simp [reconcileNormal, createWorkflow, h0, hhw, ht, hc, hg, hp, hs]
            · simp [reconcileNormal, createWorkflow, h0, hhw, ht, hc, hg, hp]
            · exact status_noCreate env _ tw

/-- Witness for C1 at a concrete all-successful environment. -/
theorem c1_witness :
    ∃ hw t id tr,
      envBase.getHardware wfEmpty.hardwareRef = .ok hw ∧
      envBase.getTemplate wfEmpty.templateRef = .ok t ∧
      envBase.create t.tinkID hw.specID = .ok id ∧
      (reconcileNormal envBase wfEmpty).w.tinkID = id ∧
      (reconcileNormal envBase wfEmpty).trace =
        [.storeGetHardware wfEmpty.hardwareRef,
         .storeGetTemplate wfEmpty.templateRef,
         .remoteCreate t.tinkID hw.specID, .remoteGet id,
         .storePatchWorkflow { wfEmpty with tinkID := id }] ++ tr ∧
      noCreate tr = true :=
  c1_amended_id_persisted envBase wfEmpty (some requeueSeconds) rfl rfl

/-- The delete path never calls Create. -/
lemma delete_noCreate (env : Env) (w : WorkflowResource) :
    noCreate (reconcileDelete env w).trace = true := by
  by_cases hid : w.tinkID = ""
  · cases hp : env.patchWorkflow (removeFinalizer w workflowFinalizer) <;>
      simp [reconcileDelete, hid, hp, noCreate, Ev.isCreate]
  · cases hd : env.deleteW w.tinkID with
    | error e =>
      by_cases hnf : e.isNotFound = true
      · cases hp : env.patchWorkflow (removeFinalizer w workflowFinalizer) <;>
          simp [reconcileDelete, hid, hd, hnf, hp, noCreate, Ev.isCreate]
      · simp [reconcileDelete, hid, hd, hnf, noCreate, Ev.isCreate]
    | ok u =>
      cases hp : env.patchWorkflow (removeFinalizer w workflowFinalizer) <;>
        simp [reconcileDelete, hid, hd, hp, noCreate, Ev.isCreate]

/-- Characterization of `noCreate` by membership. -/
lemma noCreate_iff (tr : List Ev) :
    noCreate tr = true ↔ ∀ e ∈ tr, e.isCreate = false := by
  simp [noCreate]

/-- With a recorded remote id the normal path never calls Create. -/
lemma normal_noCreate (env : Env) (w : WorkflowResource)
    (hid : w.tinkID ≠ "") :
    noCreate (reconcileNormal env w).trace = true := by
  cases hg : env.getW w.tinkID with
  | error e =>
    simp [reconcileNormal, hid, hg]
    rfl
  | ok tw =>
    cases hp : env.patchWorkflow { w with tinkID := w.tinkID } with
    | error e =>
      simp [reconcileNormal, hid, hg, hp]
      rfl
    | ok u =>
      have hs := (noCreate_iff _).mp
        (status_noCreate env { w with tinkID := w.tinkID } tw)
      rw [noCreate_iff]
      intro e he
      simp [reconcileNormal, hid, hg, hp] at he
      rcases he with rfl | rfl | he
      · rfl
      · rfl
      · exact hs e he

/-- The finalizer-ensuring step never calls Create and preserves the
remote id and the deletion timestamp of the in-memory resource. -/
lemma ensure_shape (env : Env) (w : WorkflowResource) (f : String) :
    noCreate (ensureFinalizer env w f).2.2 = true ∧
    (ensureFinalizer env w f).2.1.tinkID = w.tinkID ∧
    (ensureFinalizer env w f).2.1.deletionTimestampSet =
      w.deletionTimestampSet := by
  unfold ensureFinalizer
  by_cases hmem : f ∈ w.finalizers
  · simp [hmem, noCreate]
  · rw [if_neg hmem]
    cases hfp : env.finalizerPatch (addFinalizer w f) <;>
      simp [hfp, noCreate, Ev.isCreate] <;> simp [addFinalizer]

/-- C2: a resource whose remote id is already recorded when it is
loaded never has Create called on the remote client during that
reconcile pass, whatever the state of the remote execution and
whichever path (normal or delete) the pass takes. -/
theorem c2_no_create_when_id_recorded (env : Env) (name : String)
    (w0 : WorkflowResource) (hw : env.getWorkflow name = .ok w0)
    (hid : w0.tinkID ≠ "") :
    noCreate (Reconcile env name).trace = true := by
  obtain ⟨hetr, hetid, _⟩ := ensure_shape env w0 workflowFinalizer
  rcases hens : ensureFinalizer env w0 workflowFinalizer with ⟨res1, w1, tr1⟩
  rw [hens] at hetr hetid
  simp only at hetr hetid
  rw [← hetid] at hid
  have hetr2 := (noCreate_iff _).mp hetr
  cases res1 with
  | error e =>
    rw [noCreate_iff]
    intro e2 he
    simp [Reconcile, hw, hens] at he
    rcases he with rfl | he
    · rfl
    · exact hetr2 e2 he
  | ok u =>
    by_cases hdel : w1.deletionTimestampSet
    · have hd := (noCreate_iff _).mp (delete_noCreate env w1)
      rw [noCreate_iff]
      intro e2 he
      simp [Reconcile, hw, hens, hdel] at he
      rcases he with rfl | he | he
      · rfl
      · exact hetr2 e2 he
      · exact hd e2 he
    · have hn := (noCreate_iff _).mp (normal_noCreate env w1 hid)
      rw [noCreate_iff]
      intro e2 he
      simp [Reconcile, hw, hens, hdel] at he
      rcases he with rfl | he | he
      · rfl
      · exact hetr2 e2 he
      · exact hn e2 he

/-- Witness for C2 at a concrete environment whose stored resource
already records remote id R1. -/
theorem c2_witness :
    noCreate (Reconcile envWithID "wf-1").trace = true :=
  c2_no_create_when_id_recorded envWithID "wf-1" wfWithID rfl (by decide)

/-- Once the finalizer is known present, the scan accepts any suffix. -/
lemma scan_true_of_flag (tr : List Ev) :
    finalizerBeforeCreateScan true tr = true := by
  induction tr with
  | nil => rfl
  | cons e rest ih => cases e <;> simp [finalizerBeforeCreateScan, ih]

/-- A resource missing its finalizer and a fresh refs-and-ids setup. -/
def wfNoFin : WorkflowResource := { wfEmpty with finalizers := [] }

/-- As `envBase` but the stored resource does not carry the finalizer
yet. -/
def envNoFin : Env := { envBase with getWorkflow := fun _ => .ok wfNoFin }

/-- One scan step over a workflow read event. -/
lemma scan_cons_getW (flag : Bool) (n : String) (tr : List Ev) :
    finalizerBeforeCreateScan flag (Ev.storeGetWorkflow n :: tr) =
      finalizerBeforeCreateScan flag tr := rfl

/-- One scan step over a finalizer write event. -/
lemma scan_cons_finPatch (flag : Bool) (w1 : WorkflowResource)
    (tr : List Ev) :
    finalizerBeforeCreateScan flag (Ev.storeFinalizerPatch w1 :: tr) =
      finalizerBeforeCreateScan
        (flag || decide (workflowFinalizer ∈ w1.finalizers)) tr := rfl

/-- C3: whenever a Create call appears in the trace of a reconcile
pass, the finalizer was already on the loaded resource or a finalizer
write carrying it appears earlier in the trace: Reconcile ensures the
finalizer (idempotent add, persisted when missing) before branching
into the normal path. -/
theorem c3_finalizer_before_create (env : Env) (name : String)
    (w0 : WorkflowResource) (hw : env.getWorkflow name = .ok w0) :
    finalizerBeforeCreateScan (decide (workflowFinalizer ∈ w0.finalizers))
      (Reconcile env name).trace = true := by
  have hd : (false || decide (workflowFinalizer ∈
      (addFinalizer w0 workflowFinalizer).finalizers)) = true := by
    simp [addFinalizer]
  by_cases hmem : workflowFinalizer ∈ w0.finalizers
  · rw [decide_eq_true hmem]
    exact scan_true_of_flag _
  · rw [decide_eq_false hmem]
    unfold Reconcile ensureFinalizer
    simp only [hw]
    rw [if_neg hmem]
    cases hfp : env.finalizerPatch
        (addFinalizer w0 workflowFinalizer) with
    | error e =>
      exact rfl
    | ok u =>
      by_cases hdel : (addFinalizer w0 workflowFinalizer).deletionTimestampSet
      · simp [hdel]
        rw [scan_cons_getW, scan_cons_finPatch, hd]
        exact scan_true_of_flag _
      · simp [hdel]
        rw [scan_cons_getW, scan_cons_finPatch, hd]
        exact scan_true_of_flag _

/-- Witness for C3 at a concrete environment whose stored resource is
missing the finalizer, so the pass writes it before creating. -/
theorem c3_witness :
    finalizerBeforeCreateScan
      (decide (workflowFinalizer ∈ wfNoFin.finalizers))
      (Reconcile envNoFin "wf-1").trace = true :=
  c3_finalizer_before_create envNoFin "wf-1" wfNoFin rfl

/-- A normal-path run completing without error ends in the status sync:
its result and final resource are those of `reconcileStatus` for some
patched resource and fetched execution. -/
lemma normal_ok_shape (env : Env) (w : WorkflowResource) (r : Option Nat)
    (hr : (reconcileNormal env w).res = .ok r) :
    ∃ w1 tw, (reconcileNormal env w).res = (reconcileStatus env w1 tw).res ∧
      (reconcileNormal env w).w = (reconcileStatus env w1 tw).w := by
  by_cases h0 : w.tinkID = ""
  · cases hhw : env.getHardware w.hardwareRef with
    | error e => simp [reconcileNormal, createWorkflow, h0, hhw] at hr
    | ok hw =>
      cases ht : env.getTemplate w.templateRef with
      | error e => simp [reconcileNormal, createWorkflow, h0, hhw, ht] at hr
      | ok t =>
        cases hc : env.create t.tinkID hw.specID with
        | error e =>
          simp [reconcileNormal, createWorkflow, h0, hhw, ht, hc] at hr
        | ok id =>
          cases hg : env.getW id with
          | error e =>
            simp [reconcileNormal, createWorkflow, h0, hhw, ht, hc, hg] at hr
          | ok tw =>
            cases hp : env.patchWorkflow { w with tinkID := id } with
            | error e =>
              simp [reconcileNormal, createWorkflow, h0, hhw, ht, hc, hg, hp] at hr
            | ok u =>
              exact ⟨{ w with tinkID := id }, tw,
                by simp [reconcileNormal, createWorkflow, h0, hhw, ht, hc, hg, hp],
                by simp [reconcileNormal, createWorkflow, h0, hhw, ht, hc, hg, hp]⟩
  · cases hg : env.getW w.tinkID with
    | error e => simp [reconcileNormal, h0, hg] at hr
    | ok tw =>
      cases hp : env.patchWorkflow { w with tinkID := w.tinkID } with
      | error e => simp [reconcileNormal, h0, hg, hp] at hr
      | ok u =>
        exact ⟨{ w with tinkID := w.tinkID }, tw,
          by simp [reconcileNormal, h0, hg, hp],
          by simp [reconcileNormal, h0, hg, hp]⟩

/-- A reconcile pass of a non-deleting resource either fails at the
finalizer write or behaves as the normal path of the finalizer-ensured
resource. -/
lemma Reconcile_nondelete (env : Env) (name : String)
    (w0 : WorkflowResource) (hw : env.getWorkflow name = .ok w0)
    (hdel : w0.deletionTimestampSet = false) :
    (∃ e, (Reconcile env name).res = Except.error e) ∨
    (∃ wf, (Reconcile env name).res = (reconcileNormal env wf).res ∧
           (Reconcile env name).w = (reconcileNormal env wf).w) := by
  unfold Reconcile ensureFinalizer
  simp only [hw]
  by_cases hmem : workflowFinalizer ∈ w0.finalizers
  · rw [if_pos hmem]
    right
    exact ⟨w0, by simp [hdel], by simp [hdel]⟩
  · rw [if_neg hmem]
    cases hfp : env.finalizerPatch (addFinalizer w0 workflowFinalizer) with
    | error e => left; exact ⟨_, rfl⟩
    | ok u =>
      right
      have hdel2 : (addFinalizer w0 workflowFinalizer).deletionTimestampSet = false := by
        simp [addFinalizer, hdel]
      exact ⟨addFinalizer w0 workflowFinalizer,
        by simp [hdel2], by simp [hdel2]⟩

/-- C4: a successful reconcile of a non-deleting resource requeues
after exactly the fixed delay (60 seconds, one minute) when the
mirrored remote state is not terminal success, and does not requeue at
all when it is. -/
theorem c4_requeue_until_terminal (env : Env) (name : String)
    (w0 : WorkflowResource) (r : Option Nat)
    (hw : env.getWorkflow name = .ok w0)
    (hdel : w0.deletionTimestampSet = false)
    (hr : (Reconcile env name).res = .ok r) :
    (r = none ∨ r = some requeueSeconds) ∧
    (r = none ↔
      (Reconcile env name).w.statusState = TinkState.success.toString) := by
  rcases Reconcile_nondelete env name w0 hw hdel with ⟨e, he⟩ | ⟨wf, hres, hwe⟩
  · rw [he] at hr
    exact absurd hr (by simp)
  · rw [hres] at hr
    obtain ⟨w1, tw, h1, h2⟩ := normal_ok_shape env wf r hr
    rw [h1] at hr
    rw [hwe, h2]
    exact status_res_ok env w1 tw r hr

/-- Witness for C4 at a concrete environment whose remote execution has
already succeeded, so the pass completes with no requeue. -/
theorem c4_witness :
    ((none : Option Nat) = none ∨ (none : Option Nat) = some requeueSeconds) ∧
    ((none : Option Nat) = none ↔
      (Reconcile envWithID "wf-1").w.statusState =
        TinkState.success.toString) :=
  c4_requeue_until_terminal envWithID "wf-1" wfWithID none rfl rfl rfl

end Tink
